import Mathlib

/-!
Verification of the bedrocklinux-userland core: the `bru` union filesystem
(src/bru/bru.c) and the `brc` chroot-switch tool (src/brc/brc.c), shallowly
embedded over byte lists.  A C string is modelled as the `List Nat` of its
bytes before the terminating null; reading at or past the end of the list
yields the terminator `0`, matching in-bounds C-string indexing.  The two
tools' global variables (`alt_files` with its lengths, `mount_fd`, `alt_fd`)
are passed to each modelled operation as explicit parameters; operations
whose C bodies never mention a global simply ignore the parameter.
-/

namespace Bedrock

/-- The path separator byte `'/'`. -/
def sep : Nat := 47

/-- C-string byte read: `s[i]`, where the terminating null is `0`. -/
def cAt (s : List Nat) (i : Nat) : Nat := (s.get? i).getD 0

/-- `strlen`: number of bytes before the first null. -/
def cStrlen (s : List Nat) : Nat := (s.takeWhile (fun b => b ≠ 0)).length

/-- `strncmp(a, b, n) == 0`: the first `n` bytes agree, stopping early at a
common null. -/
def cStrncmpEq : List Nat → List Nat → Nat → Bool
  | _, _, 0 => true
  | a, b, n + 1 =>
    if cAt a 0 = cAt b 0 then
      if cAt a 0 = 0 then true else cStrncmpEq a.tail b.tail n
    else false

/-- `strcmp(a, b) == 0` on null-terminated strings: byte lists holding the
bytes before the terminator are equal exactly when the strings compare
equal. -/
def cStrcmpEq : List Nat → List Nat → Bool
  | [], [] => true
  | [], _ :: _ => false
  | _ :: _, [] => false
  | a :: as, b :: bs => a = b && cStrcmpEq as bs

/-- The per-entry test of `CHDIR_REF` / `GET_FD_REF` (bru.c:81-115):
`strncmp(alt_files[i], path, alt_file_lens[i]) == 0
 && (path[alt_file_lens[i]] == '\0' || path[alt_file_lens[i]] == '/')`,
with `alt_file_lens[i] = strlen(alt_files[i])` precomputed at startup
(bru.c:1073-1076). -/
def entryMatches (e p : List Nat) : Bool :=
  cStrncmpEq e p (cStrlen e) && (cAt p (cStrlen e) = 0 || cAt p (cStrlen e) = sep)

/-- Path classification: the loop of `GET_FD_REF` (bru.c:106-115) selects the
alternate descriptor iff some routing-table entry matches; `CHDIR_REF`
(bru.c:81-97) changes into the alternate directory under the same condition
(first match breaks the loop, which for the selected descriptor is the same
as existence of a match). -/
def classifyAlt (table : List (List Nat)) (p : List Nat) : Bool :=
  table.any (fun e => entryMatches e p)

/-- The spec-side classification predicate, following the spec's words: some
entry `E` is a byte-prefix of `P`, and either the lengths coincide or the
byte of `P` immediately after `E` is the path separator. -/
def specAlternate (table : List (List Nat)) (p : List Nat) : Prop :=
  ∃ e ∈ table, e <+: p ∧ (p.length = e.length ∨ p.get? e.length = some sep)

instance (table : List (List Nat)) (p : List Nat) :
    Decidable (specAlternate table p) := by
  unfold specAlternate
  infer_instance

/-- The byte list of the directory entry `"."`. -/
def dotB : List Nat := [46]

/-- The byte list of the directory entry `".."`. -/
def dotdotB : List Nat := [46, 46]

/-- Full-path formation in `bru_readdir` (bru.c:695-702 and 739-746): when
`path[1] == '\0'` the child name is used alone, otherwise `path ++ "/" ++
name`.  Note the test matches every one-byte relative path, not only the
normalized root `"."`. -/
def readdirFullPath (p name : List Nat) : List Nat :=
  if cAt p 1 = 0 then name else p ++ sep :: name

/-- The routing-table scan inside `bru_readdir`'s two loops (bru.c:706-713 and
751-758): `strncmp(full_path, alt_files[i], alt_file_lens[i]) == 0 &&
(full_path[len] == '\0' || full_path[len] == '/')`. -/
def readdirMatch (table : List (List Nat)) (fp : List Nat) : Bool :=
  table.any (fun e =>
    cStrncmpEq fp e (cStrlen e) && (cAt fp (cStrlen e) = 0 || cAt fp (cStrlen e) = sep))

/-- `bru_readdir` (bru.c:640-771) on the already-relative path `p`.  A backend
whose `fchdir`/`opendir` pair failed is `none`; otherwise `some` of the names
its directory stream yields.  The result is the list of names passed to the
`filler` callback in order, together with the FUSE return value: `"."` and
`".."` first (bru.c:673-674), then the alternate backend's children whose
full path matches the routing table, then the default backend's children
whose full path does not, and `-ENOENT` iff neither backend opened. -/
def bru_readdir (table : List (List Nat)) (p : List Nat)
    (altDir mountDir : Option (List (List Nat))) : List (List Nat) × Int :=
  let altNames :=
    match altDir with
    | none => []
    | some names => names.filter (fun n =>
        !(n == dotB) && !(n == dotdotB) && readdirMatch table (readdirFullPath p n))
  let mountNames :=
    match mountDir with
    | none => []
    | some names => names.filter (fun n =>
        !(n == dotB) && !(n == dotdotB) && !readdirMatch table (readdirFullPath p n))
  (dotB :: dotdotB :: (altNames ++ mountNames),
   if altDir.isSome || mountDir.isSome then 0 else -2)

/-- A regular file of a backend: its permission mode and contents. -/
structure CFile where
  mode : Nat
  contents : List Nat
deriving DecidableEq

/-- Association-list lookup of a path in a backend's file store. -/
def fsLookup : List (List Nat × CFile) → List Nat → Option CFile
  | [], _ => none
  | (q, f) :: rest, p => if q = p then some f else fsLookup rest p

/-- Remove a path from a backend's file store (`unlink`). -/
def fsRemove (fs : List (List Nat × CFile)) (p : List Nat) : List (List Nat × CFile) :=
  fs.filter (fun qf => !(qf.1 == p))

/-- Bind a path to a file in a backend's file store (creation/overwrite). -/
def fsInsert (fs : List (List Nat × CFile)) (p : List Nat) (f : CFile) :
    List (List Nat × CFile) :=
  (p, f) :: fsRemove fs p

/-- The fields of `struct stat` that the rename fallback consumes, in the
order the Linux x86-64 layout stores them (`st_dev` first). -/
structure StatBuf where
  st_dev : Nat
  st_ino : Nat
  st_mode : Nat
deriving DecidableEq

/-- bru.c:356 passes the whole `struct stat` as `openat`'s variadic mode
argument instead of `old_path_stat.st_mode`.  Reading a `mode_t` from a
struct-valued variadic argument is undefined in C; the model resolves the
read to the struct's leading storage, the low 32 bits of `st_dev`. -/
def modeArgOfStat (st : StatBuf) : Nat := st.st_dev % 2 ^ 32

/-- The 8 KiB read/write loop of the rename fallback (bru.c:361-397): each
iteration reads up to 8192 bytes from the source and writes them to the
destination, until `read` returns 0.  The loop is embedded with a fuel
bound on the number of iterations; one unit of fuel per source byte (plus
one) always suffices since every iteration consumes 8192 > 1 bytes. -/
def copyChunks : Nat → List Nat → List Nat
  | 0, _ => []
  | fuel + 1, src =>
    if src = [] then [] else src.take 8192 ++ copyChunks fuel (src.drop 8192)

/-- The two backend stores with their device numbers, as `bru_rename` sees
them: `mount_fd` refers to the default backend and `alt_fd` to the alternate
one, deployed on distinct mounts. -/
structure RenameState where
  mountDev : Nat
  altDev : Nat
  mountFs : List (List Nat × CFile)
  altFs : List (List Nat × CFile)
deriving DecidableEq

/-- The store selected by a `GET_FD_REF` result (`true` = `alt_fd`). -/
def getFs (s : RenameState) (isAlt : Bool) : List (List Nat × CFile) :=
  if isAlt then s.altFs else s.mountFs

/-- Replace the store selected by a `GET_FD_REF` result. -/
def setFs (s : RenameState) (isAlt : Bool) (fs : List (List Nat × CFile)) :
    RenameState :=
  if isAlt then { s with altFs := fs } else { s with mountFs := fs }

/-- The device number behind a `GET_FD_REF` result. -/
def devOf (s : RenameState) (isAlt : Bool) : Nat :=
  if isAlt then s.altDev else s.mountDev

/-- `bru_rename` (bru.c:302-413) on already-relative paths.  `GET_FD_REF`
classifies both paths; `renameat` succeeds within one backend and fails with
`EXDEV` across the two (the kernel rejects a rename across mount points, as
the comment at bru.c:277-283 records), triggering the fallback: unlink the
destination ignoring errors, `fstatat` the source (result unchecked),
`openat` the source for reading, `openat` the destination with
`O_CREAT|O_WRONLY|O_TRUNC` and the struct-as-mode argument of bru.c:356,
copy in 8 KiB chunks, close both, and unlink the source. -/
def bru_rename (table : List (List Nat)) (oldP newP : List Nat)
    (s : RenameState) : RenameState × Int :=
  let oldRef := classifyAlt table oldP
  let newRef := classifyAlt table newP
  if oldRef = newRef then
    match fsLookup (getFs s oldRef) oldP with
    | none => (s, -2)
    | some f =>
      (setFs s oldRef (fsInsert (fsRemove (getFs s oldRef) oldP) newP f), 0)
  else
    let s1 := setFs s newRef (fsRemove (getFs s newRef) newP)
    match fsLookup (getFs s1 oldRef) oldP with
    | none => (s1, -2)
    | some f =>
      let st : StatBuf := { st_dev := devOf s oldRef, st_ino := 0, st_mode := f.mode }
      let dst : CFile :=
        { mode := modeArgOfStat st
        , contents := copyChunks (f.contents.length + 1) f.contents }
      let s2 := setFs s1 newRef (fsInsert (getFs s1 newRef) newP dst)
      let s3 := setFs s2 oldRef (fsRemove (getFs s2 oldRef) oldP)
      (s3, 0)

/-- Conversion of a C `int` value to `uint64_t`, as performed by the
assignment `fi->fh = creat(path, mode)` (FUSE's `fh` field is unsigned
64-bit). -/
def uint64OfInt (x : Int) : Nat := (x % (2 : Int) ^ 64).toNat

/-- `bru_create` (bru.c:839-850): `if ((fi->fh = creat(path, mode)) < 0)
ret = -errno;`.  The comparison is applied to the assigned `fi->fh`, whose
unsigned 64-bit value is never below zero.  Arguments are the raw `creat`
result (`-1` on failure, the descriptor otherwise) and the ambient `errno`;
the result is the FUSE return value and the stored handle. -/
def bru_create (creatResult : Int) (errno : Nat) : Int × Nat :=
  let fh := uint64OfInt creatResult
  let ret : Int := if (fh : Int) < 0 then -(errno : Int) else 0
  (ret, fh)

/-- `SET_RET_ERRNO` (bru.c:136) applied to a raw syscall result: negative
results become the negated `errno`. -/
def set_ret_errno (ret : Int) (errno : Nat) : Int :=
  if ret < 0 then -(errno : Int) else ret

/-- `bru_readlink` (bru.c:196-215): from the raw `readlink` result and the
buffer size, the FUSE return value together with the index at which the
terminating null byte is stored into `buf` (`none` when no store happens).
The guard is `bytes_read <= bufsize` (bru.c:211). -/
def bru_readlink (bytesRead : Int) (bufsize : Nat) (errno : Nat) :
    Int × Option Nat :=
  if bytesRead < 0 then (-(errno : Int), none)
  else if bytesRead ≤ (bufsize : Int) then (0, some bytesRead.toNat)
  else (0, none)

/-- The per-process state `bru`'s handle operations act on: the two backend
stores, the table binding each live descriptor to the backend and path it
was opened against, and the next free descriptor number. -/
structure FuseState where
  mountFs : List (List Nat × CFile)
  altFs : List (List Nat × CFile)
  fdTable : List (Nat × Bool × List Nat)
  nextFd : Nat
deriving DecidableEq

/-- The backend store a descriptor's flag refers to (`true` = alternate). -/
def backendFs (st : FuseState) (b : Bool) : List (List Nat × CFile) :=
  if b then st.altFs else st.mountFs

/-- Replace one backend store of the handle state. -/
def setBackendFs (st : FuseState) (b : Bool) (fs : List (List Nat × CFile)) :
    FuseState :=
  if b then { st with altFs := fs } else { st with mountFs := fs }

/-- Association-list lookup in the descriptor table. -/
def lookupFd : List (Nat × Bool × List Nat) → Nat → Option (Bool × List Nat)
  | [], _ => none
  | (k, v) :: rest, fd => if k = fd then some v else lookupFd rest fd

/-- The backend and path a live descriptor was opened against. -/
def fdLookup (st : FuseState) (fd : Nat) : Option (Bool × List Nat) :=
  lookupFd st.fdTable fd

/-- `bru_open` (bru.c:474-490): `CHDIR_REF` picks the backend from the
routing table, `open` yields a descriptor for the file there, and the
descriptor is stored in `fi->fh` with FUSE return 0; failure returns the
negated error (`-ENOENT` when the file is absent). -/
def bru_open (table : List (List Nat)) (p : List Nat) (st : FuseState) :
    FuseState × Int × Option Nat :=
  let b := classifyAlt table p
  match fsLookup (backendFs st b) p with
  | none => (st, -2, none)
  | some _ =>
    ({ st with fdTable := (st.nextFd, b, p) :: st.fdTable, nextFd := st.nextFd + 1 },
     0, some st.nextFd)

/-- The file-creating effect of `bru_create` (bru.c:839-850): `CHDIR_REF`
picks the backend, `creat` truncate-creates the file there with the given
mode, and the new descriptor is stored in `fi->fh`.  (The return-value
convention of the same source function is modelled by `bru_create`.) -/
def bru_createFile (table : List (List Nat)) (p : List Nat) (mode : Nat)
    (st : FuseState) : FuseState × Int × Option Nat :=
  let b := classifyAlt table p
  let st' := setBackendFs st b (fsInsert (backendFs st b) p { mode := mode, contents := [] })
  ({ st' with fdTable := (st.nextFd, b, p) :: st.fdTable, nextFd := st.nextFd + 1 },
   0, some st.nextFd)

/-- `bru_read` (bru.c:492-500): `pread(fi->fh, buf, size, offset)`.  The body
mentions neither the path argument nor the routing table; both still appear
as parameters to mirror the C signature and the global environment. -/
def bru_read (table : List (List Nat)) (p : List Nat) (st : FuseState)
    (fh : Nat) (size offset : Nat) : Option (List Nat) :=
  match fdLookup st fh with
  | none => none
  | some (b, q) =>
    match fsLookup (backendFs st b) q with
    | none => none
    | some f => some ((f.contents.drop offset).take size)

/-- Overwrite `data` into `c` at byte offset `off`, zero-extending a short
file first, as positional `pwrite` does. -/
def writeAt (c : List Nat) (off : Nat) (data : List Nat) : List Nat :=
  (c.take off ++ List.replicate (off - c.length) 0) ++ data ++ c.drop (off + data.length)

/-- `bru_write` (bru.c:502-510): `pwrite(fi->fh, buf, size, offset)`, again
using only the stored descriptor. -/
def bru_write (table : List (List Nat)) (p : List Nat) (st : FuseState)
    (fh : Nat) (data : List Nat) (offset : Nat) : FuseState × Int :=
  match fdLookup st fh with
  | none => (st, -9)
  | some (b, q) =>
    match fsLookup (backendFs st b) q with
    | none => (st, -9)
    | some f =>
      (setBackendFs st b
         (fsInsert (backendFs st b) q { f with contents := writeAt f.contents offset data }),
       (data.length : Int))

/-- `bru_fsync` (bru.c:544-556): `fsync`/`fdatasync` on the stored
descriptor; no state change in the model. -/
def bru_fsync (table : List (List Nat)) (p : List Nat) (st : FuseState)
    (fh : Nat) : Int :=
  match fdLookup st fh with
  | none => -9
  | some _ => 0

/-- Set a file's length exactly, truncating or zero-padding, as `ftruncate`
does. -/
def truncTo (c : List Nat) (len : Nat) : List Nat :=
  c.take len ++ List.replicate (len - c.length) 0

/-- `bru_ftruncate` (bru.c:852-860): `ftruncate(fi->fh, length)` on the
stored descriptor. -/
def bru_ftruncate (table : List (List Nat)) (p : List Nat) (st : FuseState)
    (fh : Nat) (len : Nat) : FuseState × Int :=
  match fdLookup st fh with
  | none => (st, -9)
  | some (b, q) =>
    match fsLookup (backendFs st b) q with
    | none => (st, -9)
    | some f =>
      (setBackendFs st b (fsInsert (backendFs st b) q { f with contents := truncTo f.contents len }),
       0)

/-- `bru_fgetattr` (bru.c:862-870): `fstat(fi->fh, stbuf)` on the stored
descriptor, returning the file's metadata. -/
def bru_fgetattr (table : List (List Nat)) (p : List Nat) (st : FuseState)
    (fh : Nat) : Option CFile :=
  match fdLookup st fh with
  | none => none
  | some (b, q) => fsLookup (backendFs st b) q

/-- `bru_release` (bru.c:530-538): `close(fi->fh)`, dropping the stored
descriptor. -/
def bru_release (table : List (List Nat)) (p : List Nat) (st : FuseState)
    (fh : Nat) : FuseState × Int :=
  match fdLookup st fh with
  | none => (st, -9)
  | some _ =>
    ({ st with fdTable := st.fdTable.filter (fun kv => !(kv.1 == fh)) }, 0)

/-- The directory world `brc`'s escape walks: every directory has a parent
(`chdir("..")`) and an `lstat` identity, the `(st_dev, st_ino)` pair. -/
structure ChrootWorld (D : Type) where
  parent : D → D
  ident : D → Nat × Nat

/-- The ascent loop of `break_out_of_chroot` (brc.c:101-107):
`do { chdir(".."); lstat(".", &pwd); lstat("..", &par); }
 while (pwd.st_ino != par.st_ino || pwd.st_dev != par.st_dev)`,
embedded with a fuel bound on the number of iterations. -/
def ascend {D : Type} (w : ChrootWorld D) : Nat → D → Option D
  | 0, _ => none
  | n + 1, d =>
    let d' := w.parent d
    if w.ident d' = w.ident (w.parent d') then some d' else ascend w n d'

/-- `break_out_of_chroot` (brc.c:69-111): after `chdir("/")` the working
directory is the jail root, `chroot(CONFIGDIR)` places it below the new
root, the ascent loop walks to the device/inode fixed point, and
`chroot(".")` re-roots there.  The result is the directory that becomes the
new root (and working directory). -/
def break_out_of_chroot {D : Type} (w : ChrootWorld D) (fuel : Nat)
    (jailRoot : D) : Option D :=
  ascend w fuel jailRoot

/-- The bytes of the privileged alias `"pid1"`. -/
def pid1Bytes : List Nat := [112, 105, 100, 49]

/-- The two decisions of `brc`'s `main` that claim C8 concerns. -/
structure BrcDecision where
  configChecked : Bool
  descends : Bool
deriving DecidableEq

/-- The config-security gate (brc.c:169-171) and the descent decision
(brc.c:197-209) of `brc`'s `main`: `ensure_config_secure` runs iff
`strcmp(argv[1], "pid1") != 0`, and `chdir(client_path)` runs iff
additionally the real root and the client path differ in `st_dev` or
`st_ino`. -/
def brcMain (client : List Nat) (rootStat clientStat : Nat × Nat) : BrcDecision :=
  { configChecked := !cStrcmpEq client pid1Bytes
  , descends := !cStrcmpEq client pid1Bytes &&
      (rootStat.1 != clientStat.1 || rootStat.2 != clientStat.2) }

/-- The startup test applied to each alternate path (bru.c:1062):
`alt_files[i][0] == '/' || alt_files[i][strlen(alt_files[i])-1] == '/'`.
For the empty entry the second index underflows to an out-of-bounds read in
the C (`strlen` is 0 and the index is `(size_t)-1`); the model's `Nat`
subtraction reads byte 0, the terminator, which like any non-`'/'` byte
leaves the empty entry accepted. -/
def validateAltFile (e : List Nat) : Bool :=
  cAt e 0 = sep || cAt e (cStrlen e - 1) = sep

/-- The startup validation loop (bru.c:1060-1068): the first offending entry,
if any, is printed in the diagnostic and the process exits with status 1;
startup proceeds iff the result is `none`. -/
def validateAltFiles (table : List (List Nat)) : Option (List Nat) :=
  table.find? (fun e => validateAltFile e)

/-! ## Supporting lemmas -/

/-- A zero-free byte list is its own `strlen`. -/
theorem cStrlen_eq_length {s : List Nat} (h : (0 : Nat) ∉ s) :
    cStrlen s = s.length := by
  unfold cStrlen
  rw [List.takeWhile_eq_self_iff.mpr]
  intro a ha
  have : a ≠ 0 := fun he => h (he ▸ ha)
  simpa using this

theorem cAt_nil (i : Nat) : cAt [] i = 0 := by
  simp [cAt]

theorem cAt_cons_zero (x : Nat) (s : List Nat) : cAt (x :: s) 0 = x := by
  simp [cAt]

theorem cAt_cons_succ (x : Nat) (s : List Nat) (i : Nat) :
    cAt (x :: s) (i + 1) = cAt s i := by
  simp [cAt]

/-- For zero-free `e`, `strncmp(e, p, |e|) == 0` is exactly "`e` is a prefix
of `p`". -/
theorem cStrncmpEq_length_iff :
    ∀ (e p : List Nat), (0 : Nat) ∉ e → (0 : Nat) ∉ p →
      (cStrncmpEq e p e.length = true ↔ e <+: p) := by
  intro e
  induction e with
  | nil =>
    intro p _ _
    simp [cStrncmpEq]
  | cons x e ih =>
    intro p he hp
    have hx : x ≠ 0 := fun h => he (by simp [h])
    cases p with
    | nil =>
      simp only [List.length_cons, cStrncmpEq, cAt_cons_zero, cAt_nil]
      rw [if_neg hx]
      simp
    | cons y p =>
      have he' : (0 : Nat) ∉ e := fun h => he (List.mem_cons_of_mem _ h)
      have hp' : (0 : Nat) ∉ p := fun h => hp (List.mem_cons_of_mem _ h)
      simp only [List.length_cons, cStrncmpEq, cAt_cons_zero, List.tail_cons]
      by_cases hxy : x = y
      · rw [if_pos hxy, if_neg hx]
        rw [ih p he' hp', List.cons_prefix_cons]
        simp [hxy]
      · rw [if_neg hxy]
        rw [List.cons_prefix_cons]
        simp [hxy]

/-- For zero-free `p` with `e <+: p`: the byte after the matched prefix is
the terminator iff the lengths coincide. -/
theorem cAt_after_eq_zero_iff {e p : List Nat} (hp : (0 : Nat) ∉ p)
    (hpre : e <+: p) : cAt p e.length = 0 ↔ p.length = e.length := by
  constructor
  · intro h
    cases hb : p.get? e.length with
    | none => exact Nat.le_antisymm (List.get?_eq_none.mp hb) hpre.length_le
    | some b =>
      exfalso
      have hb0 : b = 0 := by
        unfold cAt at h
        rw [hb] at h
        simpa using h
      exact hp (hb0 ▸ List.get?_mem hb)
  · intro h
    have hnone : p.get? e.length = none := List.get?_eq_none.mpr (by omega)
    unfold cAt
    rw [hnone]
    rfl

/-- The byte after the matched prefix is the separator iff `p` stores the
separator there. -/
theorem cAt_eq_sep_iff {p : List Nat} (i : Nat) :
    cAt p i = sep ↔ p.get? i = some sep := by
  unfold cAt
  cases h : p.get? i with
  | none => simp [sep]
  | some b => simp

/-- The implementation classification agrees with the spec predicate on
zero-free paths and tables. -/
theorem classifyAlt_iff_specAlternate (table : List (List Nat)) (p : List Nat)
    (hp : (0 : Nat) ∉ p) (ht : ∀ e ∈ table, (0 : Nat) ∉ e) :
    classifyAlt table p = true ↔ specAlternate table p := by
  unfold classifyAlt specAlternate
  rw [List.any_eq_true]
  constructor
  · rintro ⟨e, hmem, hmatch⟩
    have he := ht e hmem
    unfold entryMatches at hmatch
    rw [cStrlen_eq_length he] at hmatch
    rw [Bool.and_eq_true] at hmatch
    obtain ⟨h1, h2⟩ := hmatch
    have hpre : e <+: p := (cStrncmpEq_length_iff e p he hp).mp h1
    refine ⟨e, hmem, hpre, ?_⟩
    rw [Bool.or_eq_true, decide_eq_true_iff, decide_eq_true_iff] at h2
    rcases h2 with h2 | h2
    · exact Or.inl ((cAt_after_eq_zero_iff hp hpre).mp h2)
    · exact Or.inr ((cAt_eq_sep_iff e.length).mp h2)
  · rintro ⟨e, hmem, hpre, hrest⟩
    have he := ht e hmem
    refine ⟨e, hmem, ?_⟩
    unfold entryMatches
    rw [cStrlen_eq_length he]
    rw [Bool.and_eq_true]
    refine ⟨(cStrncmpEq_length_iff e p he hp).mpr hpre, ?_⟩
    rw [Bool.or_eq_true, decide_eq_true_iff, decide_eq_true_iff]
    rcases hrest with h | h
    · exact Or.inl ((cAt_after_eq_zero_iff hp hpre).mpr h)
    · exact Or.inr ((cAt_eq_sep_iff e.length).mpr h)

/-! ## Claim theorems -/

/-- Claim C1: a path `P` (relative, leading separator stripped, hence
zero-free as every C path is) is classified alternate by the routing loops
iff some table entry `E` is a byte-prefix of `P` and either the lengths
coincide or the byte of `P` right after `E` is the separator; in
particular `a/b` classifies alternate under `{a}` and `{a/b}` but not under
`{a/bc}` or `{ab}`. -/
theorem C1_classification :
    (∀ (table : List (List Nat)) (p : List Nat), (0 : Nat) ∉ p →
        (∀ e ∈ table, (0 : Nat) ∉ e) →
        (classifyAlt table p = true ↔ specAlternate table p)) ∧
    classifyAlt [[97]] [97, 47, 98] = true ∧
    classifyAlt [[97, 47, 98]] [97, 47, 98] = true ∧
    classifyAlt [[97, 47, 98, 99]] [97, 47, 98] = false ∧
    classifyAlt [[97, 98]] [97, 47, 98] = false := by
  refine ⟨classifyAlt_iff_specAlternate, ?_, ?_, ?_, ?_⟩ <;> decide

/-- Claim C1, witnessed at the path `a/b` and the table `{a}`. -/
theorem C1_classification_witness :
    ((0 : Nat) ∉ ([97, 47, 98] : List Nat)) ∧
    (classifyAlt [[97]] [97, 47, 98] = true ↔ specAlternate [[97]] [97, 47, 98]) :=
  ⟨by decide, C1_classification.1 [[97]] [97, 47, 98] (by decide) (by decide)⟩

/-- Claim C2, evaluated at a failing input: for the directory `a` under the
table `{a}`, an alternate-backend child `c` has fully-qualified path `a/c`,
which classifies alternate, yet `bru_readdir` omits it (the test
`path[1] == '\0'` of bru.c:696 treats the one-byte path `a` like the root
and qualifies the child as just `c`), emitting only `.` and `..`. -/
theorem C2_readdir_drops_child :
    bru_readdir [[97]] [97] (some [[99]]) (some []) = ([[46], [46, 46]], 0) ∧
    classifyAlt [[97]] [97, 47, 99] = true ∧
    [99] ∉ (bru_readdir [[97]] [97] (some [[99]]) (some [])).1 := by
  decide

/-- Claim C3, evaluated at a failing input: a cross-backend rename of
`a/x` (alternate, device 42, mode 420) to `v/x` (default).  The fallback
copy removes the source and reproduces its contents, but the destination's
mode is the leading word of the stat struct passed at bru.c:356 — the device
number 42 — not the captured mode 420. -/
theorem C3_rename_drops_mode :
    (bru_rename [[97]] [97, 47, 120] [118, 47, 120]
        { mountDev := 1, altDev := 42, mountFs := []
        , altFs := [([97, 47, 120], { mode := 420, contents := [1, 2, 3] })] }) =
      ({ mountDev := 1, altDev := 42
       , mountFs := [([118, 47, 120], { mode := 42, contents := [1, 2, 3] })]
       , altFs := [] }, 0) ∧
    (42 : Nat) ≠ 420 := by
  decide

/-- Claim C4, evaluated at a failing input: when `creat` fails with
`errno = 13` (`EACCES`), `bru_create` stores the unsigned conversion of
`-1` in the handle and returns 0 (success) instead of `-13`, because the
`< 0` test of bru.c:846 is applied to the unsigned 64-bit `fi->fh`.  Every
dispatcher operation routed through `SET_RET_ERRNO` does return the negated
errno, as `set_ret_errno` shows. -/
theorem C4_create_swallows_error :
    bru_create (-1) 13 = (0, 18446744073709551615) ∧
    (0 : Int) ≠ -13 ∧
    set_ret_errno (-1) 13 = -13 := by
  decide

/-- Claim C5, evaluated at a failing input: when `readlink` fills the whole
buffer (`bytes_read = bufsize = 8`), the guard `bytes_read <= bufsize` of
bru.c:211 admits the store and the terminating null is written at index 8
of an 8-byte buffer — not strictly within the buffer's bounds. -/
theorem C5_readlink_terminator_out_of_bounds :
    bru_readlink 8 8 0 = (0, some 8) ∧ ¬ (8 : Nat) < 8 := by
  decide

/-- Claim C10: `bru_readdir` passes `.` and `..` to the filler before either
backend's open is examined, so they head the emitted list for every input,
and when neither backend opens the emitted list is exactly `.` and `..`
while the operation returns `-ENOENT`. -/
theorem C10_readdir_dots_on_error_path :
    (∀ (table : List (List Nat)) (p : List Nat) (altDir mountDir : Option (List (List Nat))),
        (bru_readdir table p altDir mountDir).1.take 2 = [dotB, dotdotB]) ∧
    (∀ (table : List (List Nat)) (p : List Nat),
        bru_readdir table p none none = ([dotB, dotdotB], -2)) := by
  constructor
  · intro table p altDir mountDir
    rfl
  · intro table p
    rfl

/-- Claim C10, witnessed at the root path and the empty table. -/
theorem C10_readdir_dots_on_error_path_witness :
    bru_readdir [] [46] none none = ([dotB, dotdotB], -2) :=
  C10_readdir_dots_on_error_path.2 [] [46]

/-- `strcmp`-equality of byte lists is list equality. -/
theorem cStrcmpEq_iff : ∀ a b : List Nat, cStrcmpEq a b = true ↔ a = b := by
  intro a
  induction a with
  | nil =>
    intro b
    cases b <;> simp [cStrcmpEq]
  | cons x as ih =>
    intro b
    cases b with
    | nil => simp [cStrcmpEq]
    | cons y bs => simp [cStrcmpEq, ih bs]

/-- Claim C8: for the client name `pid1` the config-security check is not
invoked and the descent into the client path is skipped; for every other
client name the check is invoked and the descent is skipped exactly when the
real root and the client path share `(st_dev, st_ino)`. -/
theorem C8_pid1_gate (client : List Nat) (rootStat clientStat : Nat × Nat) :
    (brcMain pid1Bytes rootStat clientStat).configChecked = false ∧
    (brcMain pid1Bytes rootStat clientStat).descends = false ∧
    (client ≠ pid1Bytes →
      (brcMain client rootStat clientStat).configChecked = true ∧
      ((brcMain client rootStat clientStat).descends = false ↔ rootStat = clientStat)) := by
  refine ⟨rfl, rfl, ?_⟩
  intro h
  have hc : cStrcmpEq client pid1Bytes = false := by
    rw [Bool.eq_false_iff]
    intro hcon
    exact h ((cStrcmpEq_iff client pid1Bytes).mp hcon)
  constructor
  · simp [brcMain, hc]
  · simp [brcMain, hc, Prod.ext_iff]

/-- Claim C8, witnessed at the client name `a` with coinciding stats. -/
theorem C8_pid1_gate_witness :
    (brcMain [97] (1, 2) (1, 2)).configChecked = true ∧
    ((brcMain [97] (1, 2) (1, 2)).descends = false ↔ ((1, 2) : Nat × Nat) = (1, 2)) :=
  (C8_pid1_gate [97] (1, 2) (1, 2)).2.2 (by decide)

/-- On a zero-free entry, the startup test fires exactly when the entry
begins or ends with the separator; the empty entry never fires it. -/
theorem validateAltFile_iff {e : List Nat} (he : (0 : Nat) ∉ e) :
    validateAltFile e = true ↔ (e.head? = some sep ∨ e.getLast? = some sep) := by
  cases e with
  | nil => decide
  | cons x xs =>
    have hlen : cStrlen (x :: xs) = xs.length + 1 := by
      rw [cStrlen_eq_length he]
      rfl
    have hl : (x :: xs).get? xs.length = (x :: xs).getLast? := by
      rw [List.getLast?_eq_getElem?]
      simp [List.get?_eq_getElem?]
    rw [validateAltFile, hlen]
    simp only [Nat.add_sub_cancel]
    rw [Bool.or_eq_true, decide_eq_true_iff, decide_eq_true_iff,
      cAt_eq_sep_iff, cAt_eq_sep_iff, List.get?_zero, hl]

/-- Claim C9 counterexample: the startup validation accepts the table whose
single entry is the empty string (the last-byte test of bru.c:1062 indexes
it out of bounds instead of rejecting it), so successful startup does not
make every routing-table entry non-empty. -/
theorem C9_empty_entry_accepted :
    validateAltFiles [[]] = none ∧ ([] : List Nat) ∈ [([] : List Nat)] ∧
    ([] : List Nat).length = 0 := by
  decide

/-- Claim C9 as amended: after a successful validation no routing-table entry
begins or ends with the path separator, and whenever some supplied entry
begins or ends with the separator the validation fails, reporting an
offending entry (so startup exits non-zero naming it).  Entries are
zero-free, being argv strings. -/
theorem C9_validation (table : List (List Nat))
    (ht : ∀ e ∈ table, (0 : Nat) ∉ e) :
    (validateAltFiles table = none →
      ∀ e ∈ table, e.head? ≠ some sep ∧ e.getLast? ≠ some sep) ∧
    (∀ e ∈ table, (e.head? = some sep ∨ e.getLast? = some sep) →
      ∃ bad ∈ table, validateAltFiles table = some bad ∧
        (bad.head? = some sep ∨ bad.getLast? = some sep)) := by
  constructor
  · intro hnone e hmem
    have hfalse : validateAltFile e = false := by
      have := List.find?_eq_none.mp hnone e hmem
      simpa using this
    have hiff := validateAltFile_iff (ht e hmem)
    rw [hfalse] at hiff
    simp only [Bool.false_eq_true, false_iff, not_or] at hiff
    exact hiff
  · intro e hmem hbad
    have hsome : validateAltFile e = true := (validateAltFile_iff (ht e hmem)).mpr hbad
    have hex : (table.find? (fun e => validateAltFile e)).isSome :=
      List.find?_isSome.mpr ⟨e, hmem, hsome⟩
    obtain ⟨bad, hb⟩ := Option.isSome_iff_exists.mp hex
    have hbadP : validateAltFile bad = true := List.find?_some hb
    have hbadMem : bad ∈ table := List.mem_of_find?_eq_some hb
    exact ⟨bad, hbadMem, hb, (validateAltFile_iff (ht bad hbadMem)).mp hbadP⟩

/-- Claim C9, witnessed at the accepted one-entry table `{a}`. -/
theorem C9_validation_witness :
    ([97] : List Nat).head? ≠ some sep ∧ ([97] : List Nat).getLast? ≠ some sep :=
  (C9_validation [[97]] (by decide)).1 (by decide) [97] (by decide)

/-- Claim C6: the handle operations (`bru_read`, `bru_write`, `bru_fsync`,
`bru_ftruncate`, `bru_fgetattr`, `bru_release`) depend on neither the path
argument nor the routing table, and a successful open (or create) binds the
handle to the backend the routing table selected at open time, so a later
read on the handle reads from exactly that backend no matter what path or
table accompanies it. -/
theorem C6_sticky_handles :
    (∀ (t t' : List (List Nat)) (p p' : List Nat) (st : FuseState) (fh sz off : Nat),
        bru_read t p st fh sz off = bru_read t' p' st fh sz off) ∧
    (∀ (t t' : List (List Nat)) (p p' : List Nat) (st : FuseState) (fh : Nat)
        (data : List Nat) (off : Nat),
        bru_write t p st fh data off = bru_write t' p' st fh data off) ∧
    (∀ (t t' : List (List Nat)) (p p' : List Nat) (st : FuseState) (fh : Nat),
        bru_fsync t p st fh = bru_fsync t' p' st fh) ∧
    (∀ (t t' : List (List Nat)) (p p' : List Nat) (st : FuseState) (fh len : Nat),
        bru_ftruncate t p st fh len = bru_ftruncate t' p' st fh len) ∧
    (∀ (t t' : List (List Nat)) (p p' : List Nat) (st : FuseState) (fh : Nat),
        bru_fgetattr t p st fh = bru_fgetattr t' p' st fh) ∧
    (∀ (t t' : List (List Nat)) (p p' : List Nat) (st : FuseState) (fh : Nat),
        bru_release t p st fh = bru_release t' p' st fh) ∧
    (∀ (t : List (List Nat)) (p : List Nat) (st st' : FuseState) (ret : Int) (fh : Nat),
        bru_open t p st = (st', ret, some fh) →
        fdLookup st' fh = some (classifyAlt t p, p) ∧
        ∀ (t'' : List (List Nat)) (p'' : List Nat) (sz off : Nat),
          bru_read t'' p'' st' fh sz off =
            (fsLookup (backendFs st' (classifyAlt t p)) p).map
              (fun f => (f.contents.drop off).take sz)) ∧
    (∀ (t : List (List Nat)) (p : List Nat) (m : Nat) (st st' : FuseState)
        (ret : Int) (fh : Nat),
        bru_createFile t p m st = (st', ret, some fh) →
        fdLookup st' fh = some (classifyAlt t p, p)) := by
  refine ⟨?_, ?_, ?_, ?_, ?_, ?_, ?_, ?_⟩
  · intro t t' p p' st fh sz off
    rfl
  · intro t t' p p' st fh data off
    rfl
  · intro t t' p p' st fh
    rfl
  · intro t t' p p' st fh len
    rfl
  · intro t t' p p' st fh
    rfl
  · intro t t' p p' st fh
    rfl
  · intro t p st st' ret fh h
    simp only [bru_open] at h
    cases hl : fsLookup (backendFs st (classifyAlt t p)) p with
    | none =>
      rw [hl] at h
      simp at h
    | some f =>
      rw [hl] at h
      injection h with hst hrest
      injection hrest with hret hfh
      injection hfh with hnf
      subst hst
      subst hnf
      have hfd : fdLookup
          { st with fdTable := (st.nextFd, classifyAlt t p, p) :: st.fdTable
                  , nextFd := st.nextFd + 1 } st.nextFd =
          some (classifyAlt t p, p) := by
        simp [fdLookup, lookupFd]
      refine ⟨hfd, ?_⟩
      intro t'' p'' sz off
      simp only [bru_read, hfd]
      cases hf : fsLookup (backendFs
          { st with fdTable := (st.nextFd, classifyAlt t p, p) :: st.fdTable
                  , nextFd := st.nextFd + 1 } (classifyAlt t p)) p with
      | none => simp [hf]
      | some g => simp [hf]
  · intro t p m st st' ret fh h
    simp only [bru_createFile] at h
    injection h with hst hrest
    injection hrest with hret hfh
    injection hfh with hnf
    subst hst
    subst hnf
    simp [fdLookup, lookupFd]

/-- Claim C6, witnessed: opening path `a` under table `{a}` binds descriptor
0 to the alternate backend and that path. -/
theorem C6_sticky_handles_witness :
    fdLookup { mountFs := [], altFs := [([97], { mode := 420, contents := [5] })]
             , fdTable := [(0, true, [97])], nextFd := 1 } 0 = some (true, [97]) :=
  (C6_sticky_handles.2.2.2.2.2.2.1 [[97]] [97]
      { mountFs := [], altFs := [([97], { mode := 420, contents := [5] })]
      , fdTable := [], nextFd := 0 }
      { mountFs := [], altFs := [([97], { mode := 420, contents := [5] })]
      , fdTable := [(0, true, [97])], nextFd := 1 } 0 0 (by decide)).1

/-- The ascent loop reaches the first device/inode fixed point on the parent
chain in exactly as many iterations as its distance. -/
theorem ascend_reaches {D : Type} (w : ChrootWorld D) :
    ∀ (k : Nat) (s : D), 1 ≤ k →
      w.ident (w.parent^[k] s) = w.ident (w.parent^[k + 1] s) →
      (∀ j, 1 ≤ j → j < k → w.ident (w.parent^[j] s) ≠ w.ident (w.parent^[j + 1] s)) →
      ascend w k s = some (w.parent^[k] s) := by
  intro k
  induction k with
  | zero =>
    intro s h _ _
    omega
  | succ n ih =>
    intro s _ hfix hmin
    by_cases hn : n = 0
    · subst hn
      have h1 : w.ident (w.parent s) = w.ident (w.parent (w.parent s)) := by
        simpa only [Function.iterate_succ_apply, Function.iterate_zero_apply] using hfix
      simp only [ascend]
      rw [if_pos h1]
      simp only [Function.iterate_succ_apply, Function.iterate_zero_apply]
    · have hn1 : 1 ≤ n := Nat.one_le_iff_ne_zero.mpr hn
      have hne : ¬ w.ident (w.parent s) = w.ident (w.parent (w.parent s)) := by
        have hm := hmin 1 (le_refl 1) (by omega)
        simpa only [Function.iterate_succ_apply, Function.iterate_one] using hm
      have hfix' : w.ident (w.parent^[n] (w.parent s)) =
          w.ident (w.parent^[n + 1] (w.parent s)) := by
        rw [← Function.iterate_succ_apply, ← Function.iterate_succ_apply]
        exact hfix
      have hmin' : ∀ j, 1 ≤ j → j < n →
          w.ident (w.parent^[j] (w.parent s)) ≠ w.ident (w.parent^[j + 1] (w.parent s)) := by
        intro j hj1 hjn
        rw [← Function.iterate_succ_apply, ← Function.iterate_succ_apply]
        exact hmin (j + 1) (by omega) (by omega)
      rw [Function.iterate_succ_apply]
      simp only [ascend]
      rw [if_neg hne]
      exact ih (w.parent s) hn1 hfix' hmin'

/-- Claim C7: when some proper ancestor of the starting directory is a
device/inode fixed point (its parent has its identity) and no nearer
ancestor is, the `break_out_of_chroot` ascent terminates after exactly that
many steps and re-roots at that ancestor. -/
theorem C7_escape_terminates {D : Type} (w : ChrootWorld D) (s : D) (k : Nat)
    (hk : 1 ≤ k)
    (hfix : w.ident (w.parent^[k] s) = w.ident (w.parent^[k + 1] s))
    (hmin : ∀ j, 1 ≤ j → j < k →
      w.ident (w.parent^[j] s) ≠ w.ident (w.parent^[j + 1] s)) :
    break_out_of_chroot w k s = some (w.parent^[k] s) :=
  ascend_reaches w k s hk hfix hmin

/-- Claim C7, witnessed on the chain 3 → 2 → 1 → 0 with 0 its own parent. -/
theorem C7_escape_terminates_witness :
    break_out_of_chroot { parent := fun n => n - 1, ident := fun n => (7, n) } 3 3 =
      some 0 := by
  have h := C7_escape_terminates (D := Nat)
      { parent := fun n => n - 1, ident := fun n => (7, n) } 3 3
      (by decide) (by decide)
      (by
        intro j hj1 hj2
        interval_cases j <;> decide)
  rw [h]
  decide

end Bedrock
